import Mathlib

/-!
Shallow embedding of steam-locater (src/main.rs): the interactive list/search
state machine (`App`) and the render-poll-dispatch event loop of `main`.

Modelling conventions:
* Rust `String` data that the code computes on (game names, the search query)
  is embedded as `List Char`; opaque string data (filesystem paths, status
  messages) stays `String`.
* `String::to_lowercase` is embedded as character-wise `Char.toLower`
  (exact on the ASCII range the code's comparisons exercise).
* `usize` arithmetic that can underflow (`len - 1` in `App::next` and
  `App::previous` when `len == 0`) is embedded with release-mode wrapping
  semantics, explicitly as arithmetic modulo 2^64.
* The filesystem (`Path::exists`) and process spawning (`xdg-open`) are
  external effects: path existence is a `String → Bool` parameter, and
  `open_selected` additionally returns whether a process was spawned.
* Terminal raw mode and stdout are modelled as an effect trace (`TermEffect`)
  emitted by the embedded `main` (`runProgram`).
-/

/-- listPre n h is true when the character list n is an initial segment of h
(the primitive underlying substring containment). -/
def listPre : List Char → List Char → Bool
  | [], _ => true
  | _ :: _, [] => false
  | a :: as, b :: bs => a == b && listPre as bs

/-- strContains hay needle embeds Rust str::contains: needle occurs as a
contiguous segment of hay. -/
def strContains (hay needle : List Char) : Bool :=
  listPre needle hay ||
    match hay with
    | [] => false
    | _ :: t => strContains t needle

/-- Character-wise lowercasing, embedding String::to_lowercase. -/
def toLowerStr (s : List Char) : List Char := s.map Char.toLower

/-- struct Game (src/main.rs lines 19-25). -/
structure Game where
  name : List Char
  app_id : Nat
  is_non_steam : Bool
  path : String
deriving DecidableEq

/-- struct App (src/main.rs lines 27-34); `state` embeds the
ListState.selected() component, the only part of ListState the code reads. -/
structure App where
  items : List Game
  filtered_items : List Game
  search_query : List Char
  in_search_mode : Bool
  status_message : String
  state : Option Nat
deriving DecidableEq

/-- The filter closure of App::update_filter (lines 53-57):
game.name.to_lowercase().contains(search_query.to_lowercase()). -/
def matchesQuery (q : List Char) (g : Game) : Bool :=
  strContains (toLowerStr g.name) (toLowerStr q)

/-- App::new (lines 37-47): filtered_items starts as a clone of items. -/
def App.new (items : List Game) : App :=
  { items := items
    filtered_items := items
    search_query := []
    in_search_mode := false
    status_message := "Use '/' to search, 'q' to exit."
    state := none }

/-- The usize modulus. -/
def USIZE : Nat := 2 ^ 64

/-- Release-mode wrapping usize subtraction len - 1 (underflows to 2^64 - 1
when len = 0), as evaluated in App::next line 86 and App::previous line 102. -/
def usizeSub1 (len : Nat) : Nat := (len + (USIZE - 1)) % USIZE

/-- App::update_filter (lines 49-70): rebuild filtered_items from items and
search_query, then reset the selection if it is out of bounds.  The source
binds the rebuilt list once; here the filter expression is repeated. -/
def App.update_filter (a : App) : App :=
  { a with
    filtered_items := a.items.filter (matchesQuery a.search_query)
    state :=
      match a.state with
      | some selected =>
          if (a.items.filter (matchesQuery a.search_query)).length ≤ selected then
            if (a.items.filter (matchesQuery a.search_query)).isEmpty then none else some 0
          else some selected
      | none => none }

/-- App::enter_search_mode (lines 72-74). -/
def App.enter_search_mode (a : App) : App :=
  { a with in_search_mode := true }

/-- App::exit_search_mode (lines 76-80): leave search mode, clear the query,
recompute the filter. -/
def App.exit_search_mode (a : App) : App :=
  App.update_filter { a with in_search_mode := false, search_query := [] }

/-- Event-loop text input (lines 256-259): push the character onto
search_query, then update_filter. -/
def App.append_char (c : Char) (a : App) : App :=
  App.update_filter { a with search_query := a.search_query ++ [c] }

/-- Event-loop backspace (lines 252-255): pop the last character of
search_query (no-op when empty), then update_filter. -/
def App.remove_last_char (a : App) : App :=
  App.update_filter { a with search_query := a.search_query.dropLast }

/-- App::next (lines 82-95).  The source computes i >= len - 1 on usize;
usizeSub1 embeds that subtraction. -/
def App.next (a : App) : App :=
  { a with
    state :=
      some (match a.state with
            | some i =>
                if usizeSub1 a.filtered_items.length ≤ i then 0 else i + 1
            | none => 0) }

/-- App::previous (lines 97-110). -/
def App.previous (a : App) : App :=
  { a with
    state :=
      some (match a.state with
            | some i => if i = 0 then usizeSub1 a.filtered_items.length else i - 1
            | none => 0) }

/-- App::open_selected (lines 112-126), parameterised by the external
filesystem (pathExists).  Returns the new state together with whether an
external process was spawned; the result is none exactly when the Rust index
self.filtered_items[i] would panic (cursor out of bounds). -/
def App.open_selected (pathExists : String → Bool) (a : App) : Option (App × Bool) :=
  match a.state with
  | some i =>
    match a.filtered_items[i]? with
    | none => none
    | some game =>
      if pathExists game.path then
        some ({ a with status_message :=
                  if game.is_non_steam then "Opened prefix folder." else "Opened game folder." },
              true)
      else
        some ({ a with status_message := "Folder does not exist." }, false)
  | none => some (a, false)

/-- The state the event loop starts from (lines 183-184): App::new followed
by state.select(Some(0)). -/
def initApp (items : List Game) : App :=
  { App.new items with state := some 0 }

/-- One application of a public App operation, enabled exactly as the event
loop dispatches it (lines 249-271): text-editing operations fire only in
search mode, cursor/open operations only in navigate mode; update_filter
(recompute_visible) is additionally allowed anywhere, as every caller invokes
it directly after a field write. -/
inductive Step (pe : String → Bool) : App → App → Prop
  | recompute (a : App) : Step pe a (App.update_filter a)
  | enterSearch (a : App) (h : a.in_search_mode = false) :
      Step pe a (App.enter_search_mode a)
  | exitSearch (a : App) (h : a.in_search_mode = true) :
      Step pe a (App.exit_search_mode a)
  | appendChar (a : App) (c : Char) (h : a.in_search_mode = true) :
      Step pe a (App.append_char c a)
  | removeLast (a : App) (h : a.in_search_mode = true) :
      Step pe a (App.remove_last_char a)
  | moveNext (a : App) (h : a.in_search_mode = false) : Step pe a (App.next a)
  | movePrev (a : App) (h : a.in_search_mode = false) : Step pe a (App.previous a)
  | openCurrent (a a' : App) (sp : Bool) (h : a.in_search_mode = false)
      (ho : App.open_selected pe a = some (a', sp)) : Step pe a a'

/-- States reachable from the loop's initial state by public operations. -/
def Reachable (items0 : List Game) (pe : String → Bool) (a : App) : Prop :=
  Relation.ReflTransGen (Step pe) (initApp items0) a

/-- The inductive invariant carried through the reachability proof. -/
def AppInv (items0 : List Game) (a : App) : Prop :=
  a.items = items0 ∧
  a.filtered_items = a.items.filter (matchesQuery a.search_query) ∧
  (a.in_search_mode = false → a.search_query = []) ∧
  ∀ i, a.state = some i → i < a.filtered_items.length

/-- Key codes the event loop distinguishes (lines 250-269). -/
inductive KeyCode where
  | enter
  | backspace
  | char (c : Char)
  | down
  | up
  | other
deriving DecidableEq

/-- One iteration's worth of external input to the event loop: the draw call
fails, the poll fails, the read fails, a key event arrives, or the 100 ms
poll times out (or a non-key event arrives, which the loop ignores). -/
inductive LoopInput where
  | drawFail
  | pollFail
  | readFail
  | keyEvent (k : KeyCode)
  | noEvent
deriving DecidableEq

/-- Terminal-state effects of main that the raw-mode claims observe. -/
inductive TermEffect where
  | enableRaw
  | disableRaw
  | printLine (s : String)
deriving DecidableEq, BEq

/-- The event loop's key dispatch (lines 249-271).  Returns the new state and
whether the loop breaks (only Char('q') in navigate mode).  The index panic
inside open_selected cannot fire for an in-bounds cursor; its none case is
mapped to the unchanged state here. -/
def dispatchKey (pe : String → Bool) (a : App) (k : KeyCode) : App × Bool :=
  if a.in_search_mode then
    match k with
    | KeyCode.enter => (App.exit_search_mode a, false)
    | KeyCode.backspace => (App.remove_last_char a, false)
    | KeyCode.char c => (App.append_char c a, false)
    | _ => (a, false)
  else
    match k with
    | KeyCode.char c =>
        if c = 'q' then (a, true)
        else if c = '/' then (App.enter_search_mode a, false)
        else (a, false)
    | KeyCode.down => (App.next a, false)
    | KeyCode.up => (App.previous a, false)
    | KeyCode.enter =>
        (match App.open_selected pe a with
         | some (a', _) => a'
         | none => a, false)
    | _ => (a, false)

/-- The loop of main (lines 186-279), driven by a finite input script.
Result: the terminal effects emitted from inside/after the loop, and
some true for the normal q exit (which runs disable_raw_mode, line 277),
some false for an error propagated by a ? inside the loop (which returns from
main WITHOUT running disable_raw_mode), none when the script runs out with
the loop still live. -/
def runLoop (pe : String → Bool) : App → List LoopInput → List TermEffect × Option Bool
  | _, [] => ([], none)
  | _, LoopInput.drawFail :: _ => ([], some false)
  | _, LoopInput.pollFail :: _ => ([], some false)
  | _, LoopInput.readFail :: _ => ([], some false)
  | a, LoopInput.noEvent :: rest => runLoop pe a rest
  | a, LoopInput.keyEvent k :: rest =>
      match dispatchKey pe a k with
      | (_, true) => ([TermEffect.disableRaw], some true)
      | (a', false) => runLoop pe a' rest

/-- main after catalog discovery (lines 171-281): the empty-catalog early
exit prints and returns Ok before any terminal takeover; otherwise raw mode
is enabled and the loop runs from initApp.  Second component: some true =
process exits 0, some false = error propagated (exit nonzero), none = still
running. -/
def runProgram (items : List Game) (pe : String → Bool) (script : List LoopInput) :
    List TermEffect × Option Bool :=
  if items.isEmpty then
    ([TermEffect.printLine "No games found."], some true)
  else
    match runLoop pe (initApp items) script with
    | (effs, res) => (TermEffect.enableRaw :: effs, res)

/- Concrete states used by witnesses and counterexamples. -/

/-- A one-element catalog. -/
def g0 : Game := { name := ['s'], app_id := 1, is_non_steam := false, path := "/g0" }

/-- A filesystem on which no path exists. -/
def pe0 : String → Bool := fun _ => false

/-- A filesystem on which every path exists. -/
def peTrue : String → Bool := fun _ => true

/-- A state whose visible list is empty and whose cursor is unset. -/
def emptyVisApp : App :=
  { items := [], filtered_items := [], search_query := [], in_search_mode := false,
    status_message := "", state := none }

def gz1 : Game := { name := ['a', 'z'], app_id := 1, is_non_steam := false, path := "/p1" }

def gz2 : Game := { name := ['b', 'z'], app_id := 2, is_non_steam := false, path := "/p2" }

def gc3 : Game := { name := ['c'], app_id := 3, is_non_steam := false, path := "/p3" }

def gd4 : Game := { name := ['d'], app_id := 4, is_non_steam := false, path := "/p4" }

def ge5 : Game := { name := ['e'], app_id := 5, is_non_steam := false, path := "/p5" }

/-- Five visible items, cursor on the last; the query matches only two. -/
def app5 : App :=
  { items := [gz1, gz2, gc3, gd4, ge5], filtered_items := [gz1, gz2, gc3, gd4, ge5],
    search_query := ['z'], in_search_mode := true, status_message := "", state := some 4 }

/-- Three visible items with the cursor on the last one. -/
def app3nav : App :=
  { items := [gc3, gd4, ge5], filtered_items := [gc3, gd4, ge5],
    search_query := [], in_search_mode := false, status_message := "", state := some 2 }

/-- Three visible items with the cursor on the first one. -/
def app3zero : App :=
  { items := [gc3, gd4, ge5], filtered_items := [gc3, gd4, ge5],
    search_query := [], in_search_mode := false, status_message := "", state := some 0 }

def gMissing : Game := { name := ['m'], app_id := 7, is_non_steam := true, path := "/nope" }

/-- A selected item whose folder path will not exist under pe0. -/
def appC7 : App :=
  { items := [gMissing], filtered_items := [gMissing], search_query := [],
    in_search_mode := false, status_message := "start", state := some 0 }

def gProx : Game := { name := ['p'], app_id := 2, is_non_steam := true, path := "/pfx" }

/-- A selected proxied item whose folder path exists under peTrue. -/
def appC9 : App :=
  { items := [gProx], filtered_items := [gProx], search_query := [],
    in_search_mode := false, status_message := "", state := some 0 }

/- Helper lemmas. -/

theorem strContains_nil (hay : List Char) : strContains hay [] = true := by
  cases hay <;> simp [strContains, listPre]

theorem matchesQuery_nil (g : Game) : matchesQuery [] g = true := by
  simp [matchesQuery, toLowerStr, strContains_nil]

theorem filter_matchesQuery_nil (l : List Game) : l.filter (matchesQuery []) = l := by
  induction l with
  | nil => rfl
  | cons g t ih => simp [List.filter_cons, matchesQuery_nil, ih]

theorem usize_pos : 0 < USIZE := by norm_num [USIZE]

theorem usizeSub1_lt (len : Nat) (h : 0 < len) : usizeSub1 len < len := by
  have hpos := usize_pos
  unfold usizeSub1
  rcases le_or_lt len USIZE with hle | hgt
  · have he : len + (USIZE - 1) = (len - 1) + USIZE := by omega
    rw [he, Nat.add_mod_right, Nat.mod_eq_of_lt (by omega)]
    omega
  · exact lt_trans (Nat.mod_lt _ hpos) hgt

theorem usizeSub1_eq (len : Nat) (h1 : 0 < len) (h2 : len ≤ USIZE) :
    usizeSub1 len = len - 1 := by
  have hpos := usize_pos
  unfold usizeSub1
  have he : len + (USIZE - 1) = (len - 1) + USIZE := by omega
  rw [he, Nat.add_mod_right, Nat.mod_eq_of_lt (by omega)]

theorem update_filter_items (a : App) : (App.update_filter a).items = a.items := rfl

theorem update_filter_query (a : App) :
    (App.update_filter a).search_query = a.search_query := rfl

theorem update_filter_mode (a : App) :
    (App.update_filter a).in_search_mode = a.in_search_mode := rfl

theorem update_filter_filtered (a : App) :
    (App.update_filter a).filtered_items = a.items.filter (matchesQuery a.search_query) := rfl

theorem update_filter_state (a : App) :
    (App.update_filter a).state =
      match a.state with
      | some selected =>
          if (a.items.filter (matchesQuery a.search_query)).length ≤ selected then
            if (a.items.filter (matchesQuery a.search_query)).isEmpty then none else some 0
          else some selected
      | none => none := rfl

theorem update_filter_state_bound (a : App) :
    ∀ i, (App.update_filter a).state = some i →
      i < (App.update_filter a).filtered_items.length := by
  intro i hi
  rw [update_filter_state] at hi
  rw [update_filter_filtered]
  split at hi
  · split at hi
    · split at hi
      · exact absurd hi (by simp)
      · rename_i hemp
        have h0 : i = 0 := by simpa using hi.symm
        have hne : (a.items.filter (matchesQuery a.search_query)) ≠ [] := by
          simpa [List.isEmpty_iff] using hemp
        have := List.length_pos.mpr hne
        omega
    · rename_i sel hs hle
      have h0 : i = sel := by simpa using hi.symm
      omega
  · exact absurd hi (by simp)

theorem next_state_bound (a : App) (hne : a.filtered_items ≠ [])
    (hb : ∀ i, a.state = some i → i < a.filtered_items.length) :
    ∀ i, (App.next a).state = some i → i < (App.next a).filtered_items.length := by
  intro i hi
  have hlen : 0 < a.filtered_items.length := List.length_pos.mpr hne
  have hfil : (App.next a).filtered_items = a.filtered_items := rfl
  rw [hfil]
  cases hs : a.state with
  | none =>
    have hv : (App.next a).state = some 0 := by simp [App.next, hs]
    rw [hv] at hi
    have h0 : i = 0 := by simpa using hi.symm
    omega
  | some j =>
    have hj := hb j hs
    by_cases hc : usizeSub1 a.filtered_items.length ≤ j
    · have hv : (App.next a).state = some 0 := by simp [App.next, hs, hc]
      rw [hv] at hi
      have h0 : i = 0 := by simpa using hi.symm
      omega
    · have hv : (App.next a).state = some (j + 1) := by simp [App.next, hs, hc]
      rw [hv] at hi
      have h0 : i = j + 1 := by simpa using hi.symm
      have := usizeSub1_lt a.filtered_items.length hlen
      omega

theorem previous_state_bound (a : App) (hne : a.filtered_items ≠ [])
    (hb : ∀ i, a.state = some i → i < a.filtered_items.length) :
    ∀ i, (App.previous a).state = some i → i < (App.previous a).filtered_items.length := by
  intro i hi
  have hlen : 0 < a.filtered_items.length := List.length_pos.mpr hne
  have hfil : (App.previous a).filtered_items = a.filtered_items := rfl
  rw [hfil]
  cases hs : a.state with
  | none =>
    have hv : (App.previous a).state = some 0 := by simp [App.previous, hs]
    rw [hv] at hi
    have h0 : i = 0 := by simpa using hi.symm
    omega
  | some j =>
    have hj := hb j hs
    by_cases hc : j = 0
    · have hv : (App.previous a).state = some (usizeSub1 a.filtered_items.length) := by
        simp [App.previous, hs, hc]
      rw [hv] at hi
      have h0 : i = usizeSub1 a.filtered_items.length := by simpa using hi.symm
      have := usizeSub1_lt a.filtered_items.length hlen
      omega
    · have hv : (App.previous a).state = some (j - 1) := by simp [App.previous, hs, hc]
      rw [hv] at hi
      have h0 : i = j - 1 := by simpa using hi.symm
      omega

theorem open_selected_frame (pe : String → Bool) (a a' : App) (sp : Bool)
    (h : App.open_selected pe a = some (a', sp)) :
    a'.items = a.items ∧ a'.filtered_items = a.filtered_items ∧
    a'.search_query = a.search_query ∧ a'.in_search_mode = a.in_search_mode ∧
    a'.state = a.state := by
  unfold App.open_selected at h
  split at h
  · split at h
    · exact absurd h (by simp)
    · rename_i game hg
      split at h
      · have ha : a' = { a with status_message :=
            if game.is_non_steam then "Opened prefix folder." else "Opened game folder." } := by
          have := congrArg Prod.fst (Option.some_injective _ h)
          simpa using this.symm
        subst ha
        exact ⟨rfl, rfl, rfl, rfl, rfl⟩
      · have ha : a' = { a with status_message := "Folder does not exist." } := by
          have := congrArg Prod.fst (Option.some_injective _ h)
          simpa using this.symm
        subst ha
        exact ⟨rfl, rfl, rfl, rfl, rfl⟩
  · have ha : a' = a := by
      have := congrArg Prod.fst (Option.some_injective _ h)
      simpa using this.symm
    subst ha
    exact ⟨rfl, rfl, rfl, rfl, rfl⟩

theorem appInv_init (items0 : List Game) (hne : items0 ≠ []) :
    AppInv items0 (initApp items0) := by
  refine ⟨rfl, ?_, fun _ => rfl, ?_⟩
  · show items0 = items0.filter (matchesQuery [])
    rw [filter_matchesQuery_nil]
  · intro i hi
    have h0 : i = 0 := by simpa [initApp, App.new] using hi.symm
    show i < items0.length
    have := List.length_pos.mpr hne
    omega

theorem step_preserves (items0 : List Game) (pe : String → Bool) (a a' : App)
    (hne : items0 ≠ []) (hinv : AppInv items0 a) (hs : Step pe a a') :
    AppInv items0 a' := by
  obtain ⟨h1, h2, h3, h4⟩ := hinv
  cases hs with
  | recompute =>
    exact ⟨h1, rfl, h3, update_filter_state_bound a⟩
  | enterSearch h =>
    refine ⟨h1, h2, ?_, h4⟩
    intro hmode
    have hm : (true : Bool) = false := hmode
    simp at hm
  | exitSearch h =>
    refine ⟨h1, rfl, fun _ => rfl, ?_⟩
    exact update_filter_state_bound { a with in_search_mode := false, search_query := [] }
  | appendChar c h =>
    refine ⟨h1, rfl, ?_, ?_⟩
    · intro hmode
      have hm : a.in_search_mode = false := hmode
      rw [h] at hm
      simp at hm
    · exact update_filter_state_bound { a with search_query := a.search_query ++ [c] }
  | removeLast h =>
    refine ⟨h1, rfl, ?_, ?_⟩
    · intro hmode
      have hm : a.in_search_mode = false := hmode
      rw [h] at hm
      simp at hm
    · exact update_filter_state_bound { a with search_query := a.search_query.dropLast }
  | moveNext h =>
    have hq : a.search_query = [] := h3 h
    have hfil : a.filtered_items = a.items := by
      rw [h2, hq, filter_matchesQuery_nil]
    have hne2 : a.filtered_items ≠ [] := by rw [hfil, h1]; exact hne
    exact ⟨h1, h2, h3, next_state_bound a hne2 h4⟩
  | movePrev h =>
    have hq : a.search_query = [] := h3 h
    have hfil : a.filtered_items = a.items := by
      rw [h2, hq, filter_matchesQuery_nil]
    have hne2 : a.filtered_items ≠ [] := by rw [hfil, h1]; exact hne
    exact ⟨h1, h2, h3, previous_state_bound a hne2 h4⟩
  | openCurrent _ sp h ho =>
    obtain ⟨f1, f2, f3, f4, f5⟩ := open_selected_frame pe a a' sp ho
    refine ⟨f1 ▸ h1, ?_, ?_, ?_⟩
    · rw [f1, f2, f3]; exact h2
    · intro hmode; rw [f3]; exact h3 (f4 ▸ hmode)
    · intro i hi; rw [f2]; exact h4 i (f5 ▸ hi)

theorem reachable_appInv (items0 : List Game) (pe : String → Bool) (a : App)
    (hne : items0 ≠ []) (hr : Reachable items0 pe a) : AppInv items0 a := by
  unfold Reachable at hr
  induction hr with
  | refl => exact appInv_init items0 hne
  | tail hab hbc ih => exact step_preserves items0 pe _ _ hne ih hbc

/-- C1: In every state reachable from the loop's initial state (non-empty
catalog, cursor Some 0) by the public operations as the event loop enables
them, a cursor of Some i always satisfies i < len(visible); in particular the
cursor is never Some i while visible is empty. -/
theorem c1_cursor_always_in_bounds (items0 : List Game) (pe : String → Bool)
    (a : App) (hne : items0 ≠ []) (hr : Reachable items0 pe a) :
    (∀ i, a.state = some i → i < a.filtered_items.length) ∧
    (a.filtered_items = [] → a.state = none) := by
  have hinv := reachable_appInv items0 pe a hne hr
  obtain ⟨-, -, -, h4⟩ := hinv
  refine ⟨h4, ?_⟩
  intro hemp
  cases hstate : a.state with
  | none => rfl
  | some i =>
    have := h4 i hstate
    rw [hemp] at this
    simp at this

/-- C1 witness: the invariant instantiated at the initial state of a concrete
one-item catalog. -/
theorem c1_cursor_always_in_bounds_witness :
    0 < (initApp [g0]).filtered_items.length :=
  (c1_cursor_always_in_bounds [g0] pe0 (initApp [g0]) (by decide)
    Relation.ReflTransGen.refl).1 0 rfl

/-- C2 counterexample: on a state with empty visible list and unset cursor,
App::next and App::previous are NOT no-ops: each sets the cursor to Some 0
(the code never checks for emptiness before selecting). -/
theorem c2_counterexample :
    emptyVisApp.filtered_items = [] ∧
    App.next emptyVisApp ≠ emptyVisApp ∧
    App.previous emptyVisApp ≠ emptyVisApp := by
  refine ⟨rfl, ?_, ?_⟩ <;> decide

/-- C2 (amended): for a state whose cursor is in bounds, move_next advances
by one wrapping len-1 to 0 and move_previous retreats by one wrapping 0 to
len-1; a None cursor selects 0 under both.  But when visible is empty the
operations are not no-ops: with a None cursor both set the cursor to Some 0
(and with a Some cursor the usize len-1 underflows). -/
theorem c2_wraparound (a : App) (hlen : a.filtered_items.length ≤ USIZE) :
    (a.state = none →
      (App.next a).state = some 0 ∧ (App.previous a).state = some 0) ∧
    (∀ i, a.state = some i → i < a.filtered_items.length →
      (App.next a).state =
        some (if i + 1 = a.filtered_items.length then 0 else i + 1) ∧
      (App.previous a).state =
        some (if i = 0 then a.filtered_items.length - 1 else i - 1)) ∧
    (a.filtered_items = [] → a.state = none →
      App.next a = { a with state := some 0 } ∧
      App.previous a = { a with state := some 0 }) := by
  refine ⟨?_, ?_, ?_⟩
  · intro h
    constructor <;> simp [App.next, App.previous, h]
  · intro i hsi hlt
    have h1 : 0 < a.filtered_items.length := Nat.lt_of_le_of_lt (Nat.zero_le i) hlt
    have he := usizeSub1_eq a.filtered_items.length h1 hlen
    constructor
    · have hv : (App.next a).state =
          some (if usizeSub1 a.filtered_items.length ≤ i then 0 else i + 1) := by
        simp [App.next, hsi]
      rw [hv, he]
      by_cases hc : i + 1 = a.filtered_items.length
      · rw [if_pos (by omega), if_pos hc]
      · rw [if_neg (by omega), if_neg hc]
    · have hv : (App.previous a).state =
          some (if i = 0 then usizeSub1 a.filtered_items.length else i - 1) := by
        simp [App.previous, hsi]
      rw [hv, he]
  · intro hemp hnone
    constructor <;> simp [App.next, App.previous, hnone]

/-- C2 witness: the wraparound theorem instantiated on three-item lists,
Some 2 steps to Some 0 under next and Some 0 steps to Some 2 under previous. -/
theorem c2_wraparound_witness :
    (App.next app3nav).state = some 0 ∧ (App.previous app3zero).state = some 2 := by
  constructor
  · have h := ((c2_wraparound app3nav (by norm_num [app3nav, USIZE])).2.1 2 rfl
      (by norm_num [app3nav])).1
    exact h.trans (by norm_num [app3nav])
  · have h := ((c2_wraparound app3zero (by norm_num [app3zero, USIZE])).2.1 0 rfl
      (by norm_num [app3zero])).2
    exact h.trans (by norm_num [app3zero])

/-- C3: after update_filter, the visible list is exactly the items whose
lowercased name contains the lowercased query, it is an order-preserving
subsequence of the catalog, and the empty query yields the whole catalog. -/
theorem c3_filter_exact (a : App) :
    (App.update_filter a).filtered_items = a.items.filter (matchesQuery a.search_query) ∧
    List.Sublist (App.update_filter a).filtered_items a.items ∧
    (a.search_query = [] → (App.update_filter a).filtered_items = a.items) := by
  refine ⟨rfl, ?_, ?_⟩
  · rw [update_filter_filtered]
    exact List.filter_sublist a.items
  · intro hq
    rw [update_filter_filtered, hq, filter_matchesQuery_nil]

/-- C3 witness: the empty query leaves the full catalog visible. -/
theorem c3_filter_exact_witness :
    (App.update_filter (App.new [g0])).filtered_items = (App.new [g0]).items :=
  (c3_filter_exact (App.new [g0])).2.2 rfl

/-- C4: after update_filter rebuilds visible, a previously out-of-range
cursor Some i (i at or past the new length) is reset to Some 0 when the new
visible list is non-empty and to None when it is empty. -/
theorem c4_cursor_repair (a : App) (i : Nat) (hs : a.state = some i)
    (hge : (App.update_filter a).filtered_items.length ≤ i) :
    (App.update_filter a).state =
      if (App.update_filter a).filtered_items.isEmpty then none else some 0 := by
  rw [update_filter_filtered] at hge
  rw [update_filter_state, hs, update_filter_filtered]
  simp only [if_pos hge]

/-- C4 witness: five visible items with cursor Some 4; narrowing the filter
to two items repairs the cursor to Some 0, not an out-of-range index. -/
theorem c4_cursor_repair_witness :
    (App.update_filter app5).state = some 0 ∧
    (App.update_filter app5).filtered_items.length = 2 := by
  constructor
  · exact (c4_cursor_repair app5 4 rfl (by decide)).trans (by decide)
  · decide

/-- C5: raw mode is NOT released on every exit path.  On the normal q exit
the loop breaks and disable_raw_mode runs, but a draw (or poll/read) error
inside the loop propagates out of main with the question-mark operator
before the teardown code, leaving the terminal in raw mode: the emitted
effect trace contains enableRaw and no disableRaw while the process exits
with an error. -/
theorem c5_raw_mode_leak_on_loop_error :
    runProgram [g0] pe0 [LoopInput.drawFail] = ([TermEffect.enableRaw], some false) ∧
    runProgram [g0] pe0 [LoopInput.pollFail] = ([TermEffect.enableRaw], some false) ∧
    runProgram [g0] pe0 [LoopInput.keyEvent (KeyCode.char 'q')] =
      ([TermEffect.enableRaw, TermEffect.disableRaw], some true) := by
  refine ⟨rfl, rfl, ?_⟩
  rfl

/-- C6: the round trip enter_search, append 'a', append 'b', exit_search
clears the filter text, restores the full catalog as the visible list, and
leaves search mode, for every starting state. -/
theorem c6_search_round_trip (a : App) :
    (App.exit_search_mode (App.append_char 'b' (App.append_char 'a'
        (App.enter_search_mode a)))).search_query = [] ∧
    (App.exit_search_mode (App.append_char 'b' (App.append_char 'a'
        (App.enter_search_mode a)))).filtered_items = a.items ∧
    (App.exit_search_mode (App.append_char 'b' (App.append_char 'a'
        (App.enter_search_mode a)))).in_search_mode = false := by
  refine ⟨rfl, ?_, rfl⟩
  show a.items.filter (matchesQuery []) = a.items
  exact filter_matchesQuery_nil a.items

/-- C7: open_selected on a selected item whose path does not exist changes
only the status message (to the not-found text) and spawns no process; with
no cursor it is a complete no-op that spawns nothing. -/
theorem c7_open_missing_path (pe : String → Bool) (a : App) :
    (a.state = none → App.open_selected pe a = some (a, false)) ∧
    (∀ i g, a.state = some i → a.filtered_items[i]? = some g → pe g.path = false →
      App.open_selected pe a =
        some ({ a with status_message := "Folder does not exist." }, false)) := by
  constructor
  · intro h
    simp [App.open_selected, h]
  · intro i g hs hg hp
    simp [App.open_selected, hs, hg, hp]

/-- C7 witness: a selected item with a missing folder gets the not-found
status, all other fields unchanged, and no spawn. -/
theorem c7_open_missing_path_witness :
    App.open_selected pe0 appC7 =
      some ({ appC7 with status_message := "Folder does not exist." }, false) :=
  (c7_open_missing_path pe0 appC7).2 0 gMissing rfl rfl rfl

/-- C8: with an empty merged catalog the program prints the fixed message
and exits successfully; the effect trace holds no enableRaw, so raw mode is
never enabled and the loop (whose path begins with enableRaw) never runs. -/
theorem c8_empty_catalog_exits (pe : String → Bool) (script : List LoopInput) :
    runProgram [] pe script = ([TermEffect.printLine "No games found."], some true) ∧
    (runProgram [] pe script).1.contains TermEffect.enableRaw = false := by
  exact ⟨rfl, rfl⟩

/-- C9: open_selected on a selected item whose path exists changes only the
status message, to a success text determined solely by is_non_steam, spawns
the opener, and the two success texts differ. -/
theorem c9_open_success_labels (pe : String → Bool) (a : App) (i : Nat) (g : Game)
    (hs : a.state = some i) (hg : a.filtered_items[i]? = some g)
    (hp : pe g.path = true) :
    App.open_selected pe a =
      some ({ a with status_message :=
        if g.is_non_steam then "Opened prefix folder." else "Opened game folder." },
        true) ∧
    ("Opened prefix folder." : String) ≠ "Opened game folder." := by
  constructor
  · simp [App.open_selected, hs, hg, hp]
  · decide

/-- C9 witness: opening a selected proxied item whose path exists yields the
prefix-folder status with a spawn. -/
theorem c9_open_success_labels_witness :
    App.open_selected peTrue appC9 =
      some ({ appC9 with status_message := "Opened prefix folder." }, true) := by
  have h := (c9_open_success_labels peTrue appC9 0 gProx rfl rfl rfl).1
  exact h.trans (by decide)

/-- C10: update_filter is idempotent when nothing changes in between: a
second call yields the same visible list and leaves the cursor where the
first call put it. -/
theorem c10_update_filter_idempotent (a : App) :
    (App.update_filter (App.update_filter a)).filtered_items =
      (App.update_filter a).filtered_items ∧
    (App.update_filter (App.update_filter a)).state = (App.update_filter a).state := by
  constructor
  · rfl
  · rw [update_filter_state (App.update_filter a)]
    rw [update_filter_items, update_filter_query]
    rw [update_filter_state a]
    cases hs : a.state with
    | none => rfl
    | some sel =>
      by_cases hle : (a.items.filter (matchesQuery a.search_query)).length ≤ sel
      · by_cases hemp : (a.items.filter (matchesQuery a.search_query)).isEmpty
        · simp [hle, hemp]
        · have hpos : 0 < (a.items.filter (matchesQuery a.search_query)).length := by
            have hne : (a.items.filter (matchesQuery a.search_query)) ≠ [] := by
              simpa [List.isEmpty_iff] using hemp
            exact List.length_pos.mpr hne
          simp [hle, hemp]
      · simp [hle]
